import Mathlib

/-!
# Verification of the boar-lang interpreter core

A shallow embedding, in Lean 4, of the parts of the boar-lang repository
(lexer, Pratt parser, tree-walking evaluator, environment/scope chain, and
the builtin-function table) needed to settle the specification's claims.

Conventions used throughout:
* Go `int64` values are modelled as `Int` together with an explicit
  two's-complement wrap (`i64`) applied wherever Go arithmetic can overflow.
* A Go function that can return a `nil` interface value is modelled with
  `Option`; `none` stands for Go `nil`.
* A Go runtime panic (index out of range, slice bounds, division by zero,
  nil dereference) is modelled by a dedicated `panicked` result constructor:
  the function produces no value at all.
* Go maps are modelled as association lists with insert-or-replace update.
-/

namespace Interp

/-! ## Token model (src/token/token.go)

`TokenType` is a string constant in the source; here each constant becomes a
constructor.  Only the kinds the source file declares are present. -/

inductive TokenType where
  | ILLEGAL | EOF
  | IDENT | INT
  | ASSIGN | PLUS | MINUS | BANG | ASTERISK | SLASH | LT | GT | EQ | NOT_EQ
  | COMMA | SEMICOLON
  | LPAREN | RPAREN | LBRACE | RBRACE
  | FUNCTION | LET | TRUE | FALSE | IF | ELSE | RETURN
deriving DecidableEq, Repr

structure Token where
  type : TokenType
  literal : String
deriving DecidableEq, Repr

/-- `token.LookupIdent`: keyword table lookup, defaulting to `IDENT`. -/
def lookupIdent (ident : String) : TokenType :=
  if ident = "fn" then .FUNCTION
  else if ident = "let" then .LET
  else if ident = "true" then .TRUE
  else if ident = "false" then .FALSE
  else if ident = "if" then .IF
  else if ident = "else" then .ELSE
  else if ident = "return" then .RETURN
  else .IDENT

/-! ## Lexer (src/lexer/lexer.go)

The Go lexer walks a fixed input string with a `position`/`readPosition`
cursor; the suffix of the input that has not yet been consumed is the whole
state, so we model `NextToken` as a function from the remaining characters to
a token and the new remainder. -/

def isWhitespaceCh (c : Char) : Bool :=
  c = ' ' || c = '\t' || c = '\n' || c = '\r'

/-- `isLetter`: letters and underscore. -/
def isLetterCh (c : Char) : Bool :=
  ('a' ≤ c && c ≤ 'z') || ('A' ≤ c && c ≤ 'Z') || c = '_'

/-- `isDigit`. -/
def isDigitCh (c : Char) : Bool :=
  '0' ≤ c && c ≤ '9'

/-- `Lexer.NextToken`: skip whitespace, then produce one token from the head
of the remaining input.  Reaching the end of the input yields the `EOF`
token (the source keeps returning it forever once reached). -/
def nextTok (cs : List Char) : Token × List Char :=
  let cs := cs.dropWhile isWhitespaceCh
  match cs with
  | [] => (⟨.EOF, ""⟩, [])
  | c :: rest =>
    if c = '=' then
      match rest with
      | '=' :: rest2 => (⟨.EQ, "=="⟩, rest2)
      | _ => (⟨.ASSIGN, "="⟩, rest)
    else if c = '+' then (⟨.PLUS, "+"⟩, rest)
    else if c = '-' then (⟨.MINUS, "-"⟩, rest)
    else if c = '!' then
      match rest with
      | '=' :: rest2 => (⟨.NOT_EQ, "!="⟩, rest2)
      | _ => (⟨.BANG, "!"⟩, rest)
    else if c = '/' then (⟨.SLASH, "/"⟩, rest)
    else if c = '*' then (⟨.ASTERISK, "*"⟩, rest)
    else if c = '<' then (⟨.LT, "<"⟩, rest)
    else if c = '>' then (⟨.GT, ">"⟩, rest)
    else if c = ';' then (⟨.SEMICOLON, ";"⟩, rest)
    else if c = ',' then (⟨.COMMA, ","⟩, rest)
    else if c = '(' then (⟨.LPAREN, "("⟩, rest)
    else if c = ')' then (⟨.RPAREN, ")"⟩, rest)
    else if c = '\x7b' then (⟨.LBRACE, String.mk [c]⟩, rest)
    else if c = '\x7d' then (⟨.RBRACE, String.mk [c]⟩, rest)
    else if isLetterCh c then
      -- readIdentifier: maximal run of letters, then keyword lookup
      let word := (c :: rest).takeWhile isLetterCh
      (⟨lookupIdent (String.mk word), String.mk word⟩, (c :: rest).dropWhile isLetterCh)
    else if isDigitCh c then
      -- readNumber: maximal run of decimal digits
      let num := (c :: rest).takeWhile isDigitCh
      (⟨.INT, String.mk num⟩, (c :: rest).dropWhile isDigitCh)
    else (⟨.ILLEGAL, String.mk [c]⟩, rest)

/-- Repeatedly call `nextTok` until `EOF`, collecting the tokens (the `EOF`
token included).  `fuel` only bounds the recursion; every call consumes
input, so `cs.length + 1` is always enough. -/
def tokenizeAux : Nat → List Char → List Token
  | 0, _ => []
  | fuel + 1, cs =>
    let (t, rest) := nextTok cs
    if t.type = .EOF then [t] else t :: tokenizeAux fuel rest

def tokenize (input : String) : List Token :=
  tokenizeAux (input.length + 1) input.data

/-! ## AST (src/ast/ast.go)

The node variants needed by the claims about the parser and the evaluator
snapshot.  The source stores a `nil` child in a node when a sub-parse fails;
those nodes are only built on inputs with syntax errors, which never arise in
the claims below, so child nodes are total here and a failed sub-parse drops
the enclosing node instead. -/

mutual
inductive Expr where
  | identifier (value : String)
  | integerLiteral (value : Int)
  | boolean (value : Bool)
  | prefixExpr (operator : String) (right : Expr)
  | infixExpr (operator : String) (left : Expr) (right : Expr)
  | ifExpr (condition : Expr) (consequence : List Stmt) (alternative : Option (List Stmt))

inductive Stmt where
  | letStmt (name : String) (value : Expr)
  | returnStmt (value : Expr)
  | exprStmt (expression : Expr)
end

/-! ## Parser (src/parser/parser.go, the operator-precedence parser)

Precedence ladder (`iota` constants): `LOWEST = 1` up to `INTERNAL_CALL = 10`. -/

def LOWEST : Nat := 1
def EQUALS : Nat := 2
def LESSGREATER : Nat := 3
def SUM : Nat := 4
def PRODUCT : Nat := 5
def PREFIX : Nat := 6
def ASSIGNP : Nat := 7
def CALL : Nat := 8

/-- The `precedences` table; token kinds not in the table default to
`LOWEST` (the source also maps `LBRACKET` and `DOT`, token kinds that the
token file in src does not declare and the lexer never produces). -/
def tokenPrecedence : TokenType → Nat
  | .EQ => EQUALS
  | .NOT_EQ => EQUALS
  | .LT => LESSGREATER
  | .GT => LESSGREATER
  | .PLUS => SUM
  | .MINUS => SUM
  | .SLASH => PRODUCT
  | .ASTERISK => PRODUCT
  | .LPAREN => CALL
  | .ASSIGN => ASSIGNP
  | _ => LOWEST

/-- Parser state: `curToken`, `peekToken`, the not-yet-read tail of the token
stream, and the accumulated error strings.  Reading past the end of the
stream keeps producing the `EOF` token, as the lexer does. -/
structure PState where
  cur : Token
  peek : Token
  rest : List Token
  errors : List String
deriving Repr

def eofToken : Token := ⟨.EOF, ""⟩

/-- `Parser.nextToken`. -/
def advance (s : PState) : PState :=
  { cur := s.peek, peek := s.rest.headD eofToken, rest := s.rest.tail, errors := s.errors }

def initPState (ts : List Token) : PState :=
  { cur := ts.headD eofToken, peek := (ts.tail).headD eofToken,
    rest := ts.tail.tail, errors := [] }

def peekPrecedence (s : PState) : Nat := tokenPrecedence s.peek.type
def curPrecedence (s : PState) : Nat := tokenPrecedence s.cur.type

def tokenTypeName : TokenType → String
  | .ILLEGAL => "ILLEGAL" | .EOF => "EOF" | .IDENT => "IDENT" | .INT => "INT"
  | .ASSIGN => "=" | .PLUS => "+" | .MINUS => "-" | .BANG => "!"
  | .ASTERISK => "*" | .SLASH => "/" | .LT => "<" | .GT => ">"
  | .EQ => "==" | .NOT_EQ => "!=" | .COMMA => "," | .SEMICOLON => ";"
  | .LPAREN => "(" | .RPAREN => ")" | .LBRACE => "\x7b" | .RBRACE => "\x7d"
  | .FUNCTION => "FUNCTION" | .LET => "LET" | .TRUE => "TRUE" | .FALSE => "FALSE"
  | .IF => "IF" | .ELSE => "ELSE" | .RETURN => "RETURN"

def addError (s : PState) (msg : String) : PState :=
  { s with errors := s.errors ++ [msg] }

/-- `noPrefixParseFnError`. -/
def noPrefixParseFnError (s : PState) : PState :=
  addError s ("no prefix parse function for " ++ tokenTypeName s.cur.type ++ " found")

/-- `peekError`, recorded by `expectPeek` on a mismatch. -/
def peekError (s : PState) (t : TokenType) : PState :=
  addError s ("expected next token to be " ++ tokenTypeName t ++ ", got "
    ++ tokenTypeName s.peek.type ++ " instead")

/-- `expectPeek`: advance on a match, record an error otherwise. -/
def expectPeek (s : PState) (t : TokenType) : Bool × PState :=
  if s.peek.type = t then (true, advance s) else (false, peekError s t)

/-- `strconv.ParseInt(lit, 0, 64)` on the digit runs the lexer produces:
base 0 reads a leading `0` as octal; the value must fit in `int64`.
`none` models the non-nil `err` (which makes `parseIntegerLiteral` record
"could not parse ... as integer" and return `nil`). -/
def parseInt64 (s : String) : Option Int :=
  let ds := s.data
  let base : Nat := if ds.headD '0' = '0' && ds.length > 1 then 8 else 10
  let val? : Option Nat := ds.foldl (fun acc c =>
    match acc with
    | none => none
    | some a =>
      let d := c.toNat - '0'.toNat
      if d < base then some (a * base + d) else none) (some 0)
  match val? with
  | none => none
  | some n => if n ≤ 2 ^ 63 - 1 then some (Int.ofNat n) else none

/-! `parseExpression` and the parse functions it dispatches to.  The source
registers prefix/infix functions in two tables at parser construction; here
the dispatch is inlined as a match on the token kind.  Only the parse
functions reachable from the token kinds that the token file declares (and
that these claims exercise) are carried over: the `if`/`fn` prefix functions
and the call/index/dot/assign infix functions are omitted, and behave as
unregistered entries; none of the inputs below contains those tokens.

Each function takes fuel for the mutual recursion; every recursive call
strictly consumes fuel, and the concrete proofs run with ample fuel. -/

mutual

/-- `parseExpression(precedence)`: prefix dispatch, then the
left-associativity loop. -/
def parseExpression (fuel : Nat) (precedence : Nat) (s : PState) :
    Option Expr × PState :=
  match fuel with
  | 0 => (none, s)
  | fuel + 1 =>
    match s.cur.type with
    | .IDENT => parseExprLoop fuel precedence (Expr.identifier s.cur.literal) s
    | .INT =>
      match parseInt64 s.cur.literal with
      | some v => parseExprLoop fuel precedence (Expr.integerLiteral v) s
      | none =>
        (none, addError s ("could not parse " ++ s.cur.literal ++ " as integer"))
    | .BANG | .MINUS =>
      -- parsePrefixExpression: keep the operator, advance, parse at PREFIX
      let op := s.cur.literal
      let s := advance s
      match parseExpression fuel PREFIX s with
      | (some right, s) => parseExprLoop fuel precedence (Expr.prefixExpr op right) s
      | (none, s) => (none, s)
    | .TRUE => parseExprLoop fuel precedence (Expr.boolean true) s
    | .FALSE => parseExprLoop fuel precedence (Expr.boolean false) s
    | .LPAREN =>
      -- parseGroupedExpression
      let s := advance s
      match parseExpression fuel LOWEST s with
      | (some e, s) =>
        match expectPeek s .RPAREN with
        | (true, s) => parseExprLoop fuel precedence e s
        | (false, s) => (none, s)
      | (none, s) => (none, s)
    | _ => (none, noPrefixParseFnError s)

/-- The `for !p.peekTokenIs(token.SEMICOLON) && precedence < p.peekPrecedence()`
loop of `parseExpression`: each infix operator folds the already-parsed
expression as its left operand. -/
def parseExprLoop (fuel : Nat) (precedence : Nat) (left : Expr) (s : PState) :
    Option Expr × PState :=
  match fuel with
  | 0 => (none, s)
  | fuel + 1 =>
    if s.peek.type ≠ .SEMICOLON ∧ precedence < peekPrecedence s then
      match s.peek.type with
      | .PLUS | .MINUS | .SLASH | .ASTERISK | .EQ | .NOT_EQ | .LT | .GT =>
        -- advance onto the operator, then parseInfixExpression
        let s := advance s
        let op := s.cur.literal
        let opPrec := curPrecedence s
        let s := advance s
        match parseExpression fuel opPrec s with
        | (some right, s) => parseExprLoop fuel precedence (Expr.infixExpr op left right) s
        | (none, s) => (none, s)
      | _ => (some left, s)   -- no infix function registered: return leftExp
    else (some left, s)

end

/-- `parseLetStatement`. -/
def parseLetStatement (fuel : Nat) (s : PState) : Option Stmt × PState :=
  match expectPeek s .IDENT with
  | (false, s) => (none, s)
  | (true, s) =>
    let name := s.cur.literal
    match expectPeek s .ASSIGN with
    | (false, s) => (none, s)
    | (true, s) =>
      let s := advance s
      match parseExpression fuel LOWEST s with
      | (some v, s) =>
        let s := if s.peek.type = .SEMICOLON then advance s else s
        (some (Stmt.letStmt name v), s)
      | (none, s) => (none, s)

/-- `parseReturnStatement`. -/
def parseReturnStatement (fuel : Nat) (s : PState) : Option Stmt × PState :=
  let s := advance s
  match parseExpression fuel LOWEST s with
  | (some v, s) =>
    let s := if s.peek.type = .SEMICOLON then advance s else s
    (some (Stmt.returnStmt v), s)
  | (none, s) => (none, s)

/-- `parseExpressionStatement`. -/
def parseExpressionStatement (fuel : Nat) (s : PState) : Option Stmt × PState :=
  match parseExpression fuel LOWEST s with
  | (some e, s) =>
    let s := if s.peek.type = .SEMICOLON then advance s else s
    (some (Stmt.exprStmt e), s)
  | (none, s) => (none, s)

/-- `parseStatement`. -/
def parseStatement (fuel : Nat) (s : PState) : Option Stmt × PState :=
  match s.cur.type with
  | .LET => parseLetStatement fuel s
  | .RETURN => parseReturnStatement fuel s
  | _ => parseExpressionStatement fuel s

/-- The `ParseProgram` loop: parse statements until `EOF`, skipping `nil`
statements, advancing after each one. -/
def parseProgramAux : Nat → PState → List Stmt → List Stmt × List String
  | 0, s, acc => (acc, s.errors)
  | fuel + 1, s, acc =>
    if s.cur.type = .EOF then (acc, s.errors)
    else
      match parseStatement (fuel + 1) s with
      | (some st, s) => parseProgramAux fuel (advance s) (acc ++ [st])
      | (none, s) => parseProgramAux fuel (advance s) acc

/-- `Parser.New` + `ParseProgram`: statements of the resulting `Program`
plus the accumulated syntax-error strings. -/
def parseProgram (input : String) : List Stmt × List String :=
  parseProgramAux (input.length + 8) (initPState (tokenize input)) []

/-! ## Object model (the `object` package; src carries its `Object`
interface in part_024, usage fixes the variants)

`TRUE`, `FALSE` and `NULL` are process-wide singletons in the source;
since no other construct can produce a distinct Boolean or Null, value
equality on these constructors coincides with the source's pointer
identity.  `ReturnValue` wraps an `object.Object` interface value, which
can be Go `nil`, hence the `Option`. -/

inductive Obj where
  | integer (value : Int)
  | boolean (value : Bool)
  | null
  | returnValue (value : Option Obj)
  | error (message : String)
  | str (value : String)

/-- `Object.Type()` tag strings. -/
def typeName : Obj → String
  | .integer _ => "INTEGER"
  | .boolean _ => "BOOLEAN"
  | .null => "NULL"
  | .returnValue _ => "RETURN_VALUE"
  | .error _ => "ERROR"
  | .str _ => "STRING"

/-- Outcome of evaluating a node: a Go panic, a `nil` Object, or an Object. -/
inductive Res where
  | panicked
  | goNil
  | val (o : Obj)

/-- Did evaluation panic (Go runtime abort)? -/
def isPanicked : Res → Bool
  | .panicked => true
  | _ => false

/-- Two's-complement wrap to `int64`, applied where Go arithmetic overflows
silently. -/
def i64 (n : Int) : Int := (n + 2 ^ 63) % 2 ^ 64 - 2 ^ 63

/-- `isError`: non-nil and of `ERROR` type. -/
def isErrorRes : Res → Bool
  | .val (.error _) => true
  | _ => false

/-- View a non-panic outcome as the (possibly nil) Object Go returned. -/
def resObj : Res → Option Obj
  | .val o => some o
  | _ => none

def resOfOpt : Option Obj → Res
  | some o => .val o
  | none => .goNil

/-! ## Evaluator (src/evaluator/evaluator.go, first document: the
tree-walking evaluator the claims cite) -/

/-- `evalBangOperatorExpression`: switch over the singleton pointers
`TRUE`/`FALSE`/`NULL`; everything else (a nil Object included) is truthy,
so `!` yields `FALSE` on it. -/
def evalBangOperatorExpression : Option Obj → Obj
  | some (.boolean true) => .boolean false
  | some (.boolean false) => .boolean true
  | some .null => .boolean true
  | _ => .boolean false

/-- `evalMinusPrefixOperatorExpression`: `right.Type()` dereferences a nil
Object (panic); a non-Integer is an unknown-operator error; negating
`int64` wraps. -/
def evalMinusPrefixOperatorExpression : Option Obj → Res
  | none => .panicked
  | some (.integer v) => .val (.integer (i64 (-v)))
  | some o => .val (.error ("unknown operator: -" ++ typeName o))

/-- `evalPrefixExpression`. -/
def evalPrefixExpression (operator : String) (right : Option Obj) : Res :=
  match operator with
  | "!" => .val (evalBangOperatorExpression right)
  | "-" => evalMinusPrefixOperatorExpression right
  | _ =>
    match right with
    | none => .panicked   -- the error format calls right.Type() on nil
    | some o => .val (.error ("unknown operator: " ++ operator ++ typeName o))

/-- `evalIntegerInfixExpression`: Go `int64` arithmetic wraps on overflow;
`/` is Go's truncating division, and a zero divisor is a runtime panic, not
an `Error` Object (there is no zero check in the source). -/
def evalIntegerInfixExpression (operator : String) (leftVal rightVal : Int) : Res :=
  match operator with
  | "+" => .val (.integer (i64 (leftVal + rightVal)))
  | "-" => .val (.integer (i64 (leftVal - rightVal)))
  | "*" => .val (.integer (i64 (leftVal * rightVal)))
  | "/" =>
    if rightVal = 0 then .panicked
    else .val (.integer (i64 (Int.tdiv leftVal rightVal)))
  | "<" => .val (.boolean (decide (leftVal < rightVal)))
  | ">" => .val (.boolean (decide (leftVal > rightVal)))
  | "==" => .val (.boolean (decide (leftVal = rightVal)))
  | "!=" => .val (.boolean (decide (leftVal ≠ rightVal)))
  | _ => .val (.error ("unknown operator: INTEGER " ++ operator ++ " INTEGER"))

/-- Go interface identity (`left == right`) as the source's `==`/`!=` use
it, reached only when the operands are not both Integers: two nil
interfaces are equal; the Boolean and Null singletons are equal exactly
when they are the same singleton; all other Objects reaching this point
are freshly allocated by their operand evaluations, so never identical. -/
def objIdentityEq : Option Obj → Option Obj → Bool
  | none, none => true
  | some (.boolean a), some (.boolean b) => a = b
  | some .null, some .null => true
  | _, _ => false

/-- `evalInfixExpression`: `bothAreIntegers` calls `left.Type()` (panic on
nil), and `right.Type()` only when the left operand is an Integer; the
type-mismatch test dereferences both operands. -/
def evalInfixExpression (operator : String) (left right : Option Obj) : Res :=
  match left with
  | none => .panicked
  | some (.integer lv) =>
    match right with
    | none => .panicked
    | some (.integer rv) => evalIntegerInfixExpression operator lv rv
    | some r =>
      if operator = "==" then .val (.boolean (objIdentityEq left right))
      else if operator = "!=" then .val (.boolean (!objIdentityEq left right))
      else if typeName (.integer lv) ≠ typeName r then
        .val (.error ("type mismatch: INTEGER " ++ operator ++ " " ++ typeName r))
      else .val (.error ("unknown operator: INTEGER " ++ operator ++ " " ++ typeName r))
  | some l =>
    if operator = "==" then .val (.boolean (objIdentityEq left right))
    else if operator = "!=" then .val (.boolean (!objIdentityEq left right))
    else
      match right with
      | none => .panicked
      | some r =>
        if typeName l ≠ typeName r then
          .val (.error ("type mismatch: " ++ typeName l ++ " " ++ operator ++ " " ++ typeName r))
        else
          .val (.error ("unknown operator: " ++ typeName l ++ " " ++ operator ++ " " ++ typeName r))

/-- `isTruthy`: switch over the singletons; a nil Object falls to the
default (truthy) branch. -/
def isTruthy : Option Obj → Bool
  | some .null => false
  | some (.boolean b) => b
  | _ => true

/-- Does a block stop here?  `result != nil && (rt == RETURN_VALUE_OBJ ||
rt == ERROR_OBJ)`. -/
def stopsBlock : Res → Bool
  | .val (.returnValue _) => true
  | .val (.error _) => true
  | _ => false

mutual

/-- `Eval` on expression nodes.  An `Identifier` has no case in this
snapshot's switch, so it falls to the trailing `return nil`. -/
def evalExpr : Expr → Res
  | .identifier _ => .goNil
  | .integerLiteral v => .val (.integer v)
  | .boolean b => .val (.boolean b)
  | .prefixExpr op right =>
    match evalExpr right with
    | .panicked => .panicked
    | r => if isErrorRes r then r else evalPrefixExpression op (resObj r)
  | .infixExpr op l r =>
    match evalExpr l with
    | .panicked => .panicked
    | lres =>
      match evalExpr r with
      | .panicked => .panicked
      | rres =>
        if isErrorRes lres then lres
        else if isErrorRes rres then lres   -- the source returns `left` here
        else evalInfixExpression op (resObj lres) (resObj rres)
  | .ifExpr c cons alt =>
    match evalExpr c with
    | .panicked => .panicked
    | cres =>
      if isErrorRes cres then cres
      else if isTruthy (resObj cres) then evalBlock cons
      else
        match alt with
        | some a => evalBlock a
        | none => .val .null

/-- `Eval` on statement nodes.  A `LetStatement` has no case in this
snapshot's switch, so it falls to the trailing `return nil`. -/
def evalStmt : Stmt → Res
  | .letStmt _ _ => .goNil
  | .returnStmt e =>
    match evalExpr e with
    | .panicked => .panicked
    | r => if isErrorRes r then r else .val (.returnValue (resObj r))
  | .exprStmt e => evalExpr e

/-- `evalBlockStatement`: evaluate in order; a `ReturnValue` or `Error`
result is returned as-is (no unwrapping), stopping the block. -/
def evalBlock : List Stmt → Res
  | [] => .goNil
  | s :: rest =>
    match evalStmt s with
    | .panicked => .panicked
    | r =>
      if stopsBlock r then r
      else
        match rest with
        | [] => r
        | _ :: _ => evalBlock rest

/-- `evalProgram`: evaluate in order; a `ReturnValue` stops the loop and is
unwrapped to its inner Object, an `Error` stops the loop and is returned
as-is. -/
def evalProgramStmts : List Stmt → Res
  | [] => .goNil
  | s :: rest =>
    match evalStmt s with
    | .panicked => .panicked
    | .val (.returnValue v) => resOfOpt v
    | .val (.error m) => .val (.error m)
    | r =>
      match rest with
      | [] => r
      | _ :: _ => evalProgramStmts rest

end

/-- Parse then evaluate: the external contract "evaluate the parsed program
against an environment" for programs that touch no environment. -/
def run (input : String) : Res :=
  evalProgramStmts (parseProgram input).1

/-- Modelled from the spec: the current evaluator's string branch of
`evalInfixExpression` is not under src/ (the evaluator document in src
predates Strings; its companion test file in src exercises it).  Per the
spec, "string operands support only `+` (concatenation)"; any other
operator on two Strings is an unknown-operator error, as the test
`"Hello" - "World"` → `unknown operator: STRING - STRING` pins down. -/
def evalStringInfixExpression (operator : String) (leftVal rightVal : String) : Obj :=
  if operator = "+" then .str (leftVal ++ rightVal)
  else .error ("unknown operator: STRING " ++ operator ++ " STRING")

/-- The top-level (`evalProgram`) treatment of a stopping result: a
`ReturnValue` is unwrapped to its inner Object, anything else — an `Error`
included — is passed through unchanged. -/
def unwrapTop : Res → Res
  | .val (.returnValue v) => resOfOpt v
  | r => r

end Interp

namespace EnvM

/-! ## Environment (src/unnamed/part_023, package object)

`Environment` is a `map[string]Object` plus an optional outer scope.  The
stored values are opaque to `Get`/`Set`, so the model is polymorphic in
them.  The Go map becomes an association list with insert-or-replace
update (`storeSet`), which preserves key uniqueness. -/

/-- Lookup in one scope's map. -/
def storeGet {α : Type} : List (String × α) → String → Option α
  | [], _ => none
  | (k, v) :: rest, name => if k = name then some v else storeGet rest name

/-- `e.store[name] = val`: replace the existing entry or add a new one. -/
def storeSet {α : Type} : List (String × α) → String → α → List (String × α)
  | [], name, val => [(name, val)]
  | (k, v) :: rest, name, val =>
    if k = name then (name, val) :: rest else (k, v) :: storeSet rest name val

inductive Env (α : Type) where
  | mk (store : List (String × α)) (outer : Option (Env α))

def Env.store {α : Type} : Env α → List (String × α)
  | .mk s _ => s

def Env.outer {α : Type} : Env α → Option (Env α)
  | .mk _ o => o

/-- `Environment.Get`: the own map first; on a miss, the outer scope if
there is one. -/
def Env.get {α : Type} : Env α → String → Option α
  | .mk store outer, name =>
    match storeGet store name with
    | some v => some v
    | none =>
      match outer with
      | some o => Env.get o name
      | none => none

/-- `Environment.Set`: write into this Environment's own map; the outer
chain is untouched. -/
def Env.set {α : Type} : Env α → String → α → Env α
  | .mk store outer, name, val => .mk (storeSet store name val) outer

/-- The scope chain, innermost first. -/
def Env.scopes {α : Type} : Env α → List (List (String × α))
  | .mk store outer =>
    store :: (match outer with
              | some o => Env.scopes o
              | none => [])

/-- Lookup through a chain of scopes, innermost first: the first scope that
binds the name decides. -/
def chainGet {α : Type} : List (List (String × α)) → String → Option α
  | [], _ => none
  | s :: rest, name =>
    match storeGet s name with
    | some v => some v
    | none => chainGet rest name

end EnvM

namespace Builtins

/-! ## Builtin functions (src/unnamed/part_018, package evaluator of the
current `boar` tree)

Arrays are mutable reference objects in the source (`*object.Array`, whose
`Elements` slice is reassigned in place by `pop`/`shift`), so an Array
value is a reference into an explicit store of element sequences; `&object.
Array{...}` allocates a fresh reference.  Hashes appear here only through
`dig`, which never mutates, so a Hash carries its pairs directly. -/

/-- `object.HashKey`, derived from a hashable Object's type tag and content. -/
inductive HashKey where
  | intKey (v : Int)
  | strKey (s : String)
  | boolKey (b : Bool)
deriving DecidableEq, Repr

inductive Obj where
  | integer (value : Int)
  | str (value : String)
  | boolean (value : Bool)
  | null
  | error (message : String)
  | arrayRef (ref : Nat)
  | hash (pairs : List (HashKey × Obj × Obj))
  | function (fid : Nat)

/-- A heap of Array element sequences; `Obj.arrayRef` indexes into it, and
allocation appends. -/
abbrev Store := List (List Obj)

/-- Outcome of a builtin invocation: a Go panic, or the updated store
together with the returned (possibly Go-nil) Object. -/
inductive BOut where
  | panicked
  | ret (st : Store) (res : Option Obj)

/-- `Object.Type()` tags, as used in the builtins' error messages. -/
def btypeName : Obj → String
  | .integer _ => "INTEGER"
  | .str _ => "STRING"
  | .boolean _ => "BOOLEAN"
  | .null => "NULL"
  | .error _ => "ERROR"
  | .arrayRef _ => "ARRAY"
  | .hash _ => "HASH"
  | .function _ => "FUNCTION"

/-- `newError` (defined in the evaluator, not under src/): an Error Object
with the formatted message. -/
def newError (msg : String) : Obj := .error msg

/-- Modelled from the spec: `isArray`, the evaluator's ARRAY type test (the
function itself is not under src/; part_018 only calls it). -/
def isArray : Obj → Bool
  | .arrayRef _ => true
  | _ => false

/-- Modelled from the spec: `isHash`, the evaluator's HASH type test (the
function itself is not under src/; part_018 only calls it). -/
def isHash : Obj → Bool
  | .hash _ => true
  | _ => false

/-- `object.Hashable`: Integers, Strings and Booleans hash; `none` is a
failed `.(object.Hashable)` assertion. -/
def hashKeyOf : Obj → Option HashKey
  | .integer v => some (.intKey v)
  | .str s => some (.strKey s)
  | .boolean b => some (.boolKey b)
  | _ => none

/-- Is this Object the `NULL` singleton?  (The source compares `err !=
NULL` by interface identity; the checkers return either `NULL` itself or a
fresh Error, so the value test coincides.) -/
def isNullObj : Obj → Bool
  | .null => true
  | _ => false

/-- Go map lookup on a Hash's `Pairs`. -/
def pairsGet : List (HashKey × Obj × Obj) → HashKey → Option (Obj × Obj)
  | [], _ => none
  | (k, pr) :: rest, key => if k = key then some pr else pairsGet rest key

/-- `checkForArrayErrors`: rejects MORE than `argumentsExpected` arguments
and a non-Array first argument — but reads `args[0]` without checking that
any argument exists at all, so an empty argument list is an
index-out-of-range panic (`none`).  On success it returns `NULL`. -/
def checkForArrayErrors (functionName : String) (argumentsExpected : Nat)
    (args : List Obj) : Option Obj :=
  if args.length > argumentsExpected then
    some (newError ("wrong number of arguments passed to " ++ functionName
      ++ ". Got " ++ toString args.length ++ " wanted " ++ toString argumentsExpected))
  else
    match args with
    | [] => none
    | a :: _ =>
      if !isArray a then
        some (newError ("argument to `" ++ functionName ++ "` must be ARRAY, got "
          ++ btypeName a))
      else some .null

/-- `checkForHashErrors`: unlike the Array checker this one rejects too FEW
arguments, so `args[0]` below it is always in range. -/
def checkForHashErrors (functionName : String) (argumentsExpected : Nat)
    (args : List Obj) : Option Obj :=
  if args.length < argumentsExpected then
    some (newError ("wrong number of arguments, got " ++ toString args.length
      ++ " wanted " ++ toString argumentsExpected))
  else
    match args with
    | [] => none
    | a :: _ =>
      if !isHash a then
        some (newError ("argument to `" ++ functionName ++ "` must be HASH, got "
          ++ btypeName a))
      else some .null

/-- `__first__`. -/
def __first__ (st : Store) (args : List Obj) : BOut :=
  match checkForArrayErrors "first" 1 args with
  | none => .panicked
  | some err =>
    if !isNullObj err then .ret st (some err)
    else
      match args with
      | .arrayRef r :: _ =>
        match st.getD r [] with
        | e :: _ => .ret st (some e)
        | [] => .ret st (some .null)
      | _ => .panicked   -- failed *object.Array assertion; unreachable past the check

/-- `__last__`. -/
def __last__ (st : Store) (args : List Obj) : BOut :=
  match checkForArrayErrors "last" 1 args with
  | none => .panicked
  | some err =>
    if !isNullObj err then .ret st (some err)
    else
      match args with
      | .arrayRef r :: _ =>
        match (st.getD r []).getLast? with
        | some e => .ret st (some e)
        | none => .ret st (some .null)
      | _ => .panicked

/-- `__rest__`: a fresh Array holding every element but the first (a copy,
not a view), or `NULL` on an empty Array. -/
def __rest__ (st : Store) (args : List Obj) : BOut :=
  match checkForArrayErrors "rest" 1 args with
  | none => .panicked
  | some err =>
    if !isNullObj err then .ret st (some err)
    else
      match args with
      | .arrayRef r :: _ =>
        match st.getD r [] with
        | _ :: tl => .ret (st ++ [tl]) (some (.arrayRef st.length))
        | [] => .ret st (some .null)
      | _ => .panicked

/-- `__push__`: a fresh Array of the original elements followed by the
pushed value.  The expected count is 2, but nothing stops a single-argument
call from reaching the unguarded `args[1]` (panic). -/
def __push__ (st : Store) (args : List Obj) : BOut :=
  match checkForArrayErrors "push" 2 args with
  | none => .panicked
  | some err =>
    if !isNullObj err then .ret st (some err)
    else
      match args with
      | .arrayRef r :: v :: _ =>
        .ret (st ++ [st.getD r [] ++ [v]]) (some (.arrayRef st.length))
      | [.arrayRef _] => .panicked   -- args[1]: index out of range
      | _ => .panicked

/-- `__pop__`: removes the last element in place (`arr.Elements` is
reassigned through the shared reference) and returns it; on an empty Array,
`arr.Elements[len-1]` is an index-out-of-range panic. -/
def __pop__ (st : Store) (args : List Obj) : BOut :=
  match checkForArrayErrors "pop" 1 args with
  | none => .panicked
  | some err =>
    if !isNullObj err then .ret st (some err)
    else
      match args with
      | .arrayRef r :: _ =>
        let elems := st.getD r []
        match elems.getLast? with
        | some v => .ret (st.set r elems.dropLast) (some v)
        | none => .panicked   -- arr.Elements[-1]
      | _ => .panicked

/-- `__shift__`: removes the first element in place and returns it; on an
empty Array, `arr.Elements[0]` is an index-out-of-range panic. -/
def __shift__ (st : Store) (args : List Obj) : BOut :=
  match checkForArrayErrors "shift" 1 args with
  | none => .panicked
  | some err =>
    if !isNullObj err then .ret st (some err)
    else
      match args with
      | .arrayRef r :: _ =>
        match st.getD r [] with
        | v :: tl => .ret (st.set r tl) (some v)
        | [] => .panicked   -- arr.Elements[0]
      | _ => .panicked

/-- The index-validation loop of `__slice__`: every index argument must be
a non-negative Integer; the first offender decides the error.  (The `%T`
verb in the source formats the Go type of `arg.Type()`, which is always
`object.ObjectType`.) -/
def sliceArgCheck : List Obj → Option Obj
  | [] => none
  | .integer v :: rest =>
    if v < 0 then
      some (newError ("Negative indexes not supported (yet), recieved value of "
        ++ toString v))
    else sliceArgCheck rest
  | _ :: _ =>
    some (newError "expected an integer, got a type of object.ObjectType instead")

/-- `__slice__`: builds a fresh Array object first (sharing the original
backing elements), returns it outright with no index arguments, and
otherwise reslices the copy.  Go slice expressions panic when an index
exceeds the available length, and `first > second` is likewise a panic. -/
def __slice__ (st : Store) (args : List Obj) : BOut :=
  match checkForArrayErrors "slice" 3 args with
  | none => .panicked
  | some err =>
    if !isNullObj err then .ret st (some err)
    else if args.length > 3 then
      .ret st (some (newError ("Too many values passed to `slice`, expected 3 at most, got "
        ++ toString args.length ++ " instead")))
    else
      match args with
      | .arrayRef r :: idxArgs =>
        let elems := st.getD r []
        -- arrCopy := &object.Array{Elements: arr.Elements[:]}
        let copyRef := st.length
        let st := st ++ [elems]
        match idxArgs with
        | [] => .ret st (some (.arrayRef copyRef))
        | _ =>
          match sliceArgCheck idxArgs with
          | some err => .ret st (some err)
          | none =>
            match idxArgs with
            | [.integer first] =>
              if first.toNat ≤ elems.length then
                .ret (st.set copyRef (elems.drop first.toNat)) (some (.arrayRef copyRef))
              else .panicked   -- arrCopy.Elements[firstIdx:]
            | [.integer first, .integer second] =>
              if first ≤ second ∧ second.toNat ≤ elems.length then
                .ret (st.set copyRef ((elems.take second.toNat).drop first.toNat))
                  (some (.arrayRef copyRef))
              else .panicked   -- arrCopy.Elements[firstIdx:secondIdx]
            | _ => .panicked   -- unreachable: count and types already checked
      | _ => .panicked

/-- Modelled from the spec: `applyFunction` (the evaluator's call
machinery) is not under src/; part_018 calls it from `__map__` with the
Function and the single-Array argument list.  Per the spec, `map` "returns
a new Array of per-element call results, invoking the call machinery above
for each element"; `call` stands for invoking that machinery on the given
Function with one element.  Only the single-Array argument shape used by
`__map__` is modelled. -/
def applyFunction (call : Obj → Obj) (st : Store) (fn : Obj) (args : List Obj) :
    BOut :=
  match fn, args with
  | .function _, [.arrayRef r] =>
    .ret (st ++ [(st.getD r []).map call]) (some (.arrayRef st.length))
  | _, _ => .ret st none

/-- `__map__`: validates, extracts the Function from `args[1]` (a one
argument call panics there), truncates the argument list to the Array, and
delegates to `applyFunction`. -/
def __map__ (call : Obj → Obj) (st : Store) (args : List Obj) : BOut :=
  match checkForArrayErrors "map" 2 args with
  | none => .panicked
  | some err =>
    if !isNullObj err then .ret st (some err)
    else
      match args with
      | arr :: f :: _ =>
        match f with
        | .function fid => applyFunction call st (.function fid) [arr]
        | _ =>
          -- failed assertion: `function` is nil, its Type() still prints
          .ret st (some (newError
            "second arguments to `map` should be a function, got object.ObjectType instead"))
      | [_] => .panicked   -- args[1]: index out of range
      | [] => .panicked

/-- `__dig__`: walks a key path through nested Hashes; a key present with
more path left recurses on the extracted value, a missing key returns Go
`nil` — not the `NULL` Object and not an `Error`. -/
def __dig__ (st : Store) (args : List Obj) : BOut :=
  match args with
  | [] =>
    .ret st (some (newError "wrong number of arguments, got 0 wanted 2"))
  | [_] =>
    .ret st (some (newError "wrong number of arguments, got 1 wanted 2"))
  | hashArg :: keyArg :: rest =>
    match hashArg with
    | .hash pairs =>
      match hashKeyOf keyArg with
      | none =>
        .ret st (some (newError ("Unusable value as hash key: " ++ btypeName keyArg)))
      | some kh =>
        match pairsGet pairs kh with
        | some pr =>
          match rest with
          | [] => .ret st (some pr.2)          -- len(args) == 2
          | r1 :: rs => __dig__ st (pr.2 :: r1 :: rs) -- newArgs = extracted.Value ++ args[2:]
        | none => .ret st none                  -- Go `return nil`
    | _ =>
      .ret st (some (newError ("argument to `dig` must be HASH, got "
        ++ btypeName hashArg)))
termination_by args.length

/-- Modelled from the spec: the evaluator's Hash index read
(`evalHashIndexExpression`) is not under src/.  Per the spec, "Hash index
requires the index Object to be hashable; a missing key yields `Null`" —
the contrast `dig` does not share. -/
def evalHashIndexExpression (pairs : List (HashKey × Obj × Obj)) (key : HashKey) : Obj :=
  match pairsGet pairs key with
  | some pr => pr.2
  | none => .null

end Builtins

/-! # Claims -/

open Interp EnvM Builtins

/-- C1: integer arithmetic respects the precedence ladder and
left-associativity: `"1 + 2 * 3"` evaluates to Integer 7, `"(1 + 2) * 3"`
to Integer 9, `"-1 * 2 + 3"` to Integer 1, `"10 - 2 - 3"` to Integer 5,
and the parse of `"10 - 2 - 3"` folds each successive equal-precedence
operator over the already-parsed expression as its left operand,
producing `((10 - 2) - 3)`. -/
theorem c1_precedence_and_left_associativity :
    run "1 + 2 * 3" = .val (.integer 7) ∧
    run "(1 + 2) * 3" = .val (.integer 9) ∧
    run "-1 * 2 + 3" = .val (.integer 1) ∧
    run "10 - 2 - 3" = .val (.integer 5) ∧
    (parseProgram "10 - 2 - 3").1 =
      [.exprStmt (.infixExpr "-"
        (.infixExpr "-" (.integerLiteral 10) (.integerLiteral 2))
        (.integerLiteral 3))] :=
  ⟨rfl, rfl, rfl, rfl, rfl⟩

/-- C3: the code divergence.  Evaluating `1 + (true + false)` — an infix
expression whose left operand evaluates without error and whose right
operand evaluates to an Error — yields `Integer 1`, the LEFT operand's
value, not the right operand's Error: the `isError(right)` branch of
`Eval`'s `InfixExpression` case executes `return left`. -/
theorem c3_right_operand_error_swallowed :
    evalExpr (.infixExpr "+" (.boolean true) (.boolean false)) =
      .val (.error "unknown operator: BOOLEAN + BOOLEAN") ∧
    evalExpr (.infixExpr "+" (.integerLiteral 1)
      (.infixExpr "+" (.boolean true) (.boolean false))) = .val (.integer 1) ∧
    run "1 + (true + false)" = .val (.integer 1) :=
  ⟨rfl, rfl, rfl⟩

/-- C6: the code divergence.  Invoking the builtin `pop` with an empty
argument list does not return an Object: `checkForArrayErrors` only
rejects argument lists that are too long and then reads `args[0]`
unconditionally, an index-out-of-range panic that aborts the hosting
process. -/
theorem c6_pop_empty_args_aborts : ∀ st : Store, __pop__ st [] = .panicked :=
  fun _ => rfl

/-- C9: integer division is unguarded.  For any left operand, `/` with the
Integer 0 on the right panics (returns no Object, Error or otherwise), and
with a nonzero right operand it returns the wrapped truncating quotient —
the nonzero divisor is an unstated precondition for the evaluator to
return at all. -/
theorem c9_division_by_zero_unguarded (l r : Int) :
    evalIntegerInfixExpression "/" l 0 = .panicked ∧
    evalExpr (.infixExpr "/" (.integerLiteral l) (.integerLiteral 0)) = .panicked ∧
    (r ≠ 0 → evalIntegerInfixExpression "/" l r =
      .val (.integer (i64 (Int.tdiv l r)))) := by
  refine ⟨rfl, rfl, fun h => ?_⟩
  simp [evalIntegerInfixExpression, h]

/-- Witness for C9 at `l = 7`, `r = 2`: `7 / 0` panics while `7 / 2`
returns Integer 3. -/
theorem c9_division_by_zero_unguarded_witness :
    evalIntegerInfixExpression "/" 7 0 = .panicked ∧
    evalExpr (.infixExpr "/" (.integerLiteral 7) (.integerLiteral 0)) = .panicked ∧
    evalIntegerInfixExpression "/" 7 2 = .val (.integer 3) := by
  obtain ⟨h1, h2, h3⟩ := c9_division_by_zero_unguarded 7 2
  exact ⟨h1, h2, by simpa using h3 (by decide)⟩

/-- C8: for two String operands, `+` concatenates; every other infix
operator on two Strings is an unknown-operator Error (String supports
only `+`). -/
theorem c8_string_operands_support_only_plus (l r : String) :
    evalStringInfixExpression "+" l r = .str (l ++ r) ∧
    (∀ op, op ≠ "+" → evalStringInfixExpression op l r =
      .error ("unknown operator: STRING " ++ op ++ " STRING")) := by
  refine ⟨rfl, fun op h => ?_⟩
  simp [evalStringInfixExpression, h]

/-- Witness for C8: `"Hello" + " World!"` concatenates, `"Hello" - " World!"`
is the unknown-operator error the repository's own test expects. -/
theorem c8_string_operands_support_only_plus_witness :
    evalStringInfixExpression "+" "Hello" " World!" = .str "Hello World!" ∧
    evalStringInfixExpression "-" "Hello" " World!" =
      .error "unknown operator: STRING - STRING" := by
  obtain ⟨h1, h2⟩ := c8_string_operands_support_only_plus "Hello" " World!"
  exact ⟨h1, h2 "-" (by decide)⟩


/-- `storeGet` after `storeSet`: the written name reads back the new value,
every other name reads as before. -/
theorem storeGet_storeSet {α : Type} (s : List (String × α)) (n m : String) (v : α) :
    storeGet (storeSet s n v) m = if n = m then some v else storeGet s m := by
  induction s with
  | nil => simp [storeSet, storeGet]
  | cons kv rest ih =>
    obtain ⟨k, w⟩ := kv
    by_cases hk : k = n
    · subst hk
      by_cases hm : k = m <;> simp [storeSet, storeGet, hm]
    · by_cases hm : k = m
      · have hn : ¬n = m := fun h => hk (hm.trans h.symm)
        have hmn : ¬m = n := fun h => hk (hm.trans h)
        simp [storeSet, storeGet, hk, hm, hn, hmn]
      · simp [storeSet, storeGet, hk, hm, ih]

/-- `Env.get` is innermost-first lookup along the scope chain. -/
theorem env_get_eq_chainGet {α : Type} : ∀ (env : Env α) (name : String),
    Env.get env name = chainGet (Env.scopes env) name
  | .mk store outer, name => by
    cases outer with
    | none => simp [Env.get, Env.scopes, chainGet]
    | some o =>
      simp only [Env.get, Env.scopes, chainGet]
      cases h : storeGet store name with
      | none => simpa [h] using env_get_eq_chainGet o name
      | some w => simp [h]

/-- C4: `Get` returns the binding of the innermost scope that binds the
name, consulting an outer scope only when the current scope has no binding
(`Env.get` coincides with innermost-first lookup over the scope chain);
and `Set` stores the binding in the Environment's own map — the outer
chain object is untouched, the written name now resolves to the new value,
and the resolution of every other name is unchanged, so an inner
`let x = ...` never mutates an outer binding of `x`. -/
theorem c4_scope_chain_get_set {α : Type} (env : Env α) (name : String) (v : α) :
    Env.get env name = chainGet (Env.scopes env) name ∧
    (Env.set env name v).outer = env.outer ∧
    (Env.set env name v).store = storeSet env.store name v ∧
    Env.get (Env.set env name v) name = some v ∧
    (∀ m, m ≠ name → Env.get (Env.set env name v) m = Env.get env m) := by
  refine ⟨env_get_eq_chainGet env name, ?_, ?_, ?_, ?_⟩
  · cases env with
    | mk store outer => rfl
  · cases env with
    | mk store outer => rfl
  · cases env with
    | mk store outer =>
      cases outer <;> simp [Env.set, Env.get, storeGet_storeSet]
  · intro m hm
    cases env with
    | mk store outer =>
      cases outer <;> simp [Env.set, Env.get, storeGet_storeSet, Ne.symm hm]

/-- Witness for C4: an enclosed scope whose outer scope binds `"x" ↦ 1` and
`"y" ↦ 7`, written with `let x = 2` in the inner scope: lookups agree with
the chain walk, the outer chain is untouched, `"x"` now shadows to 2 and
`"y"` still resolves through the outer scope. -/
theorem c4_scope_chain_get_set_witness :
    Env.get (Env.mk [] (some (Env.mk [("x", 1), ("y", 7)] none))) "x" =
      chainGet (Env.scopes (Env.mk [] (some (Env.mk [("x", 1), ("y", 7)] none)))) "x" ∧
    (Env.set (Env.mk [] (some (Env.mk [("x", 1), ("y", 7)] none))) "x" 2).outer =
      (Env.mk ([] : List (String × Nat)) (some (Env.mk [("x", 1), ("y", 7)] none))).outer ∧
    Env.get (Env.set (Env.mk [] (some (Env.mk [("x", 1), ("y", 7)] none))) "x" 2) "x" =
      some 2 ∧
    Env.get (Env.set (Env.mk [] (some (Env.mk [("x", 1), ("y", 7)] none))) "x" 2) "y" =
      Env.get (Env.mk [] (some (Env.mk [("x", 1), ("y", 7)] none))) "y" := by
  obtain ⟨h1, h2, _, h4, h5⟩ :=
    c4_scope_chain_get_set (Env.mk [] (some (Env.mk [("x", 1), ("y", 7)] none))) "x" 2
  exact ⟨h1, h2, h4, h5 "y" (by decide)⟩


/-- A result that stops a block is a `ReturnValue` or an `Error`. -/
theorem stops_shape {r : Res} (h : stopsBlock r = true) :
    (∃ v, r = .val (.returnValue v)) ∨ (∃ m, r = .val (.error m)) := by
  cases r with
  | panicked => simp [stopsBlock] at h
  | goNil => simp [stopsBlock] at h
  | val o =>
    cases o with
    | integer a => simp [stopsBlock] at h
    | boolean a => simp [stopsBlock] at h
    | null => simp [stopsBlock] at h
    | returnValue v => exact .inl ⟨v, rfl⟩
    | error m => exact .inr ⟨m, rfl⟩
    | str a => simp [stopsBlock] at h

/-- A block stops at a `ReturnValue`/`Error` statement: the remaining
statements are dead and the result is propagated unchanged. -/
theorem evalBlock_stop (s : Stmt) (post : List Stmt)
    (hs : stopsBlock (evalStmt s) = true) :
    evalBlock (s :: post) = evalStmt s := by
  rcases stops_shape hs with ⟨v, hv⟩ | ⟨m, hm⟩
  · simp [evalBlock, hv, stopsBlock]
  · simp [evalBlock, hm, stopsBlock]

/-- A program stops at a `ReturnValue`/`Error` statement, additionally
unwrapping a `ReturnValue`. -/
theorem evalProg_stop (s : Stmt) (post : List Stmt)
    (hs : stopsBlock (evalStmt s) = true) :
    evalProgramStmts (s :: post) = unwrapTop (evalStmt s) := by
  rcases stops_shape hs with ⟨v, hv⟩ | ⟨m, hm⟩
  · simp [evalProgramStmts, hv, unwrapTop]
  · simp [evalProgramStmts, hm, unwrapTop]

/-- A non-stopping, non-panicking statement lets a block continue. -/
theorem evalBlock_cons_continue (t : Stmt) (rest : List Stmt)
    (hp : isPanicked (evalStmt t) = false)
    (hstop : stopsBlock (evalStmt t) = false) (hne : rest ≠ []) :
    evalBlock (t :: rest) = evalBlock rest := by
  obtain ⟨hd, tl, rfl⟩ := List.exists_cons_of_ne_nil hne
  cases hr : evalStmt t with
  | panicked => rw [hr] at hp; simp [isPanicked] at hp
  | goNil => simp [evalBlock, hr, stopsBlock]
  | val o =>
    rw [hr] at hstop
    simp [evalBlock, hr, hstop]

/-- A non-stopping, non-panicking statement lets a program continue. -/
theorem evalProg_cons_continue (t : Stmt) (rest : List Stmt)
    (hp : isPanicked (evalStmt t) = false)
    (hstop : stopsBlock (evalStmt t) = false) (hne : rest ≠ []) :
    evalProgramStmts (t :: rest) = evalProgramStmts rest := by
  obtain ⟨hd, tl, rfl⟩ := List.exists_cons_of_ne_nil hne
  cases hr : evalStmt t with
  | panicked => rw [hr] at hp; simp [isPanicked] at hp
  | goNil => simp [evalProgramStmts, hr]
  | val o =>
    rw [hr] at hstop
    cases o with
    | integer a => simp [evalProgramStmts, hr]
    | boolean a => simp [evalProgramStmts, hr]
    | null => simp [evalProgramStmts, hr]
    | returnValue v => simp [stopsBlock] at hstop
    | error m => simp [stopsBlock] at hstop
    | str a => simp [evalProgramStmts, hr]

/-- C2: in a statement sequence whose earlier statements neither stop nor
panic, the first statement yielding a `ReturnValue` or an `Error` stops
evaluation — the statements after it are never consulted — and the block
propagates that result upward unchanged (no unwrapping), while the
`Program` reduction propagates it with a `ReturnValue` unwrapped to its
inner Object. -/
theorem c2_block_and_program_short_circuit
    (pre : List Stmt) (s : Stmt) (post : List Stmt)
    (hpre : ∀ t ∈ pre, isPanicked (evalStmt t) = false ∧ stopsBlock (evalStmt t) = false)
    (hs : stopsBlock (evalStmt s) = true) :
    evalBlock (pre ++ s :: post) = evalStmt s ∧
    evalProgramStmts (pre ++ s :: post) = unwrapTop (evalStmt s) := by
  induction pre with
  | nil => exact ⟨evalBlock_stop s post hs, evalProg_stop s post hs⟩
  | cons t pre ih =>
    have h := hpre t (List.mem_cons_self _ _)
    have hne : pre ++ s :: post ≠ [] := by simp
    have ihs := ih (fun u hu => hpre u (List.mem_cons_of_mem _ hu))
    rw [List.cons_append]
    exact ⟨(evalBlock_cons_continue t _ h.1 h.2 hne).trans ihs.1,
           (evalProg_cons_continue t _ h.1 h.2 hne).trans ihs.2⟩

/-- Witness for C2 on `9; return 10; 8;`: the block yields the wrapped
`ReturnValue(10)` unchanged and the statement `8` is dead; the program
yields the unwrapped Integer 10. -/
theorem c2_block_and_program_short_circuit_witness :
    evalBlock [.exprStmt (.integerLiteral 9), .returnStmt (.integerLiteral 10),
      .exprStmt (.integerLiteral 8)] = .val (.returnValue (some (.integer 10))) ∧
    evalProgramStmts [.exprStmt (.integerLiteral 9), .returnStmt (.integerLiteral 10),
      .exprStmt (.integerLiteral 8)] = .val (.integer 10) := by
  obtain ⟨h1, h2⟩ := c2_block_and_program_short_circuit
    [.exprStmt (.integerLiteral 9)] (.returnStmt (.integerLiteral 10))
    [.exprStmt (.integerLiteral 8)]
    (by
      intro t ht
      rw [List.mem_singleton] at ht
      subst ht
      exact ⟨rfl, rfl⟩)
    rfl
  exact ⟨h1, h2⟩

/-- C5: with a valid Array reference `r` into the store, `pop` and `shift`
mutate that same Array in place (the store slot at `r` loses its last,
respectively first, element) and return the removed element, while `push`,
`rest` and `slice` leave the slot at `r` untouched and return a freshly
allocated Array instance (`push`'s holding the original elements followed
by the pushed value) — the fresh reference `st.length` is distinct from
`r`, and appending an allocation never changes what `r` holds. -/
theorem c5_mutating_and_copying_array_builtins
    (st : Store) (r : Nat) (v : Builtins.Obj) (x : List Builtins.Obj) (h : r < st.length) :
    (∀ last, (st.getD r []).getLast? = some last →
      __pop__ st [.arrayRef r] = .ret (st.set r (st.getD r []).dropLast) (some last)) ∧
    (∀ e tl, st.getD r [] = e :: tl →
      __shift__ st [.arrayRef r] = .ret (st.set r tl) (some e)) ∧
    __push__ st [.arrayRef r, v] =
      .ret (st ++ [st.getD r [] ++ [v]]) (some (.arrayRef st.length)) ∧
    (∀ e tl, st.getD r [] = e :: tl →
      __rest__ st [.arrayRef r] = .ret (st ++ [tl]) (some (.arrayRef st.length))) ∧
    __slice__ st [.arrayRef r] = .ret (st ++ [st.getD r []]) (some (.arrayRef st.length)) ∧
    (st ++ [x]).getD r [] = st.getD r [] ∧
    st.length ≠ r := by
  refine ⟨?_, ?_, ?_, ?_, ?_, ?_, ?_⟩
  · intro last hlast
    simp only [List.getD_eq_getElem?_getD] at hlast
    simp [__pop__, checkForArrayErrors, isArray, isNullObj, hlast]
  · intro e tl he
    simp only [List.getD_eq_getElem?_getD] at he
    simp [__shift__, checkForArrayErrors, isArray, isNullObj, he]
  · rfl
  · intro e tl he
    simp only [List.getD_eq_getElem?_getD] at he
    simp [__rest__, checkForArrayErrors, isArray, isNullObj, he]
  · rfl
  · simp [List.getD_eq_getElem?_getD, List.getElem?_append_left h]
  · omega

/-- Witness for C5 on the store holding one Array `[1, 2]`: `pop` turns the
slot into `[1]` returning 2, `shift` into `[2]` returning 1; `push`, `rest`
and `slice` leave the slot as `[1, 2]` and return the fresh reference 1. -/
theorem c5_mutating_and_copying_array_builtins_witness :
    __pop__ [[Builtins.Obj.integer 1, Builtins.Obj.integer 2]] [.arrayRef 0] =
      .ret [[Builtins.Obj.integer 1]] (some (Builtins.Obj.integer 2)) ∧
    __shift__ [[Builtins.Obj.integer 1, Builtins.Obj.integer 2]] [.arrayRef 0] =
      .ret [[Builtins.Obj.integer 2]] (some (Builtins.Obj.integer 1)) ∧
    __push__ [[Builtins.Obj.integer 1, Builtins.Obj.integer 2]] [.arrayRef 0, Builtins.Obj.integer 9] =
      .ret [[Builtins.Obj.integer 1, Builtins.Obj.integer 2], [Builtins.Obj.integer 1, Builtins.Obj.integer 2, Builtins.Obj.integer 9]]
        (some (Builtins.Obj.arrayRef 1)) ∧
    __rest__ [[Builtins.Obj.integer 1, Builtins.Obj.integer 2]] [.arrayRef 0] =
      .ret [[Builtins.Obj.integer 1, Builtins.Obj.integer 2], [Builtins.Obj.integer 2]] (some (Builtins.Obj.arrayRef 1)) ∧
    __slice__ [[Builtins.Obj.integer 1, Builtins.Obj.integer 2]] [.arrayRef 0] =
      .ret [[Builtins.Obj.integer 1, Builtins.Obj.integer 2], [Builtins.Obj.integer 1, Builtins.Obj.integer 2]]
        (some (Builtins.Obj.arrayRef 1)) := by
  obtain ⟨hpop, hshift, hpush, hrest, hslice, _, _⟩ :=
    c5_mutating_and_copying_array_builtins
      [[Builtins.Obj.integer 1, Builtins.Obj.integer 2]] 0 (Builtins.Obj.integer 9) [] (by decide)
  exact ⟨hpop (Builtins.Obj.integer 2) rfl, hshift (Builtins.Obj.integer 1) [Builtins.Obj.integer 2] rfl, hpush,
    hrest (Builtins.Obj.integer 1) [Builtins.Obj.integer 2] rfl, hslice⟩

/-- C7: for a valid Array reference and a Function argument, `map` returns
a freshly allocated Array (reference `st.length`, distinct from the
argument's) whose elements are the per-element call results: the length
matches the input's and the `i`-th element is the call result on the
`i`-th input element.  `call` stands for the evaluator's call machinery
applied to the Function (modelled from the spec; the machinery is not
under src/). -/
theorem c7_map_returns_per_element_call_results
    (call : Builtins.Obj → Builtins.Obj) (st : Store) (r fid : Nat) (h : r < st.length) :
    __map__ call st [.arrayRef r, .function fid] =
      .ret (st ++ [(st.getD r []).map call]) (some (.arrayRef st.length)) ∧
    ((st.getD r []).map call).length = (st.getD r []).length ∧
    (∀ i : Nat, ((st.getD r []).map call)[i]? = ((st.getD r [])[i]?).map call) ∧
    st.length ≠ r := by
  refine ⟨rfl, by simp, fun i => by simp, by omega⟩

/-- Witness for C7: mapping the constant-`null` call over the Array `[1, 2]`
allocates the fresh Array `[null, null]` and leaves slot 0 untouched. -/
theorem c7_map_returns_per_element_call_results_witness :
    __map__ (fun _ => Builtins.Obj.null) [[Builtins.Obj.integer 1, Builtins.Obj.integer 2]]
      [.arrayRef 0, .function 0] =
      .ret [[Builtins.Obj.integer 1, Builtins.Obj.integer 2], [Builtins.Obj.null, Builtins.Obj.null]]
        (some (Builtins.Obj.arrayRef 1)) :=
  (c7_map_returns_per_element_call_results
    (fun _ => Builtins.Obj.null) [[Builtins.Obj.integer 1, Builtins.Obj.integer 2]] 0 0 (by decide)).1

/-- C10: when `dig`'s key is missing from the Hash, it returns Go `nil` —
no Object at all, in particular neither the `Null` Object nor an `Error` —
for any remaining key path; when the key is present with path left, `dig`
recurses on the extracted value, so a miss at any depth surfaces as the
same Go `nil`; a Hash index read (modelled from the spec) yields `Null`
for the same missing key instead. -/
theorem c10_dig_missing_key_returns_go_nil (st : Store)
    (pairs : List (HashKey × Builtins.Obj × Builtins.Obj)) (k : Builtins.Obj) (kh : HashKey) (rest : List Builtins.Obj)
    (hk : hashKeyOf k = some kh) :
    (pairsGet pairs kh = none →
      __dig__ st (.hash pairs :: k :: rest) = .ret st none) ∧
    (∀ ko v r1 rs, pairsGet pairs kh = some (ko, v) →
      __dig__ st (.hash pairs :: k :: r1 :: rs) = __dig__ st (v :: r1 :: rs)) ∧
    (pairsGet pairs kh = none → evalHashIndexExpression pairs kh = .null) := by
  refine ⟨?_, ?_, ?_⟩
  · intro hmiss
    simp [__dig__, hk, hmiss]
  · intro ko v r1 rs hhit
    simp [__dig__, hk, hhit]
  · intro hmiss
    simp [evalHashIndexExpression, hmiss]

/-- Witness for C10: digging for `"x"` in `{"a": 2}` returns Go `nil`
(`.ret st none`), while the Hash index read on the same missing key yields
the `Null` Object. -/
theorem c10_dig_missing_key_returns_go_nil_witness :
    __dig__ [] [Builtins.Obj.hash [(.strKey "a", Builtins.Obj.str "a", Builtins.Obj.integer 2)], Builtins.Obj.str "x"] =
      .ret [] none ∧
    evalHashIndexExpression [(.strKey "a", Builtins.Obj.str "a", Builtins.Obj.integer 2)] (.strKey "x") =
      Builtins.Obj.null := by
  obtain ⟨hmiss, _, hidx⟩ := c10_dig_missing_key_returns_go_nil
    [] [(.strKey "a", Builtins.Obj.str "a", Builtins.Obj.integer 2)] (Builtins.Obj.str "x") (.strKey "x") [] rfl
  exact ⟨hmiss rfl, hidx rfl⟩
